import Mathlib

/-!
Shallow embedding of `scripts/preprocess.py` (cryptoNER): the conversion of
Label Studio annotation tasks into token-aligned documents
(`create_spacy_docs`) and the greedy entity-ratio split of those documents
into train/dev/test partitions (`train_test_dev_split`).

Modelling conventions:
* Python dictionaries from the Label Studio export are embedded as
  structures carrying exactly the fields the script reads.
* The spaCy collaborators (`spacy.blank("en")` tokenization,
  `offsets_to_biluo_tags`, `biluo_tags_to_spans`) are not part of this
  repository; they are modelled from the spec (section 4.2): the tokenizer
  is an explicit argument producing tokens with character-offset
  boundaries, and an annotation resolves to an entity exactly when both of
  its character boundaries coincide with token boundaries.
* Python floats are modelled as exact rationals (ℚ).
* The global state of Python's `random` module is modelled as an explicit
  `PyRandom` value; `random.seed`/`random.shuffle` are modelled from the
  spec as a deterministic seeded permutation.
* Exceptions are modelled with `Except PyErr`; in-place mutation of the
  `docs` argument of `train_test_dev_split` is modelled by returning the
  final value of that argument alongside the normal result.
-/

namespace Preprocess

/-- One annotated span as extracted on line 66 of preprocess.py:
`(ent["start"], ent["end"], ent["labels"][0])`. -/
structure Annotation where
  start : ℕ
  «end» : ℕ
  label : String
deriving Repr, DecidableEq

/-- The `value` field of one entry of `completion["result"]` (lines 63-66):
character start/end offsets and a possibly multi-label list. -/
structure ResultValue where
  start : ℕ
  «end» : ℕ
  labels : List String
deriving Repr, DecidableEq

/-- One entry of `completion["result"]`. -/
structure ResultEntry where
  value : ResultValue
deriving Repr, DecidableEq

/-- One completion of a task; `was_cancelled` models the presence of the
`"was_cancelled"` key in the completion dictionary (line 58 tests key
presence, not the key's value). -/
structure Completion where
  result : List ResultEntry
  was_cancelled : Bool
deriving Repr, DecidableEq

/-- The `data` field of a task; `reddit` is the raw annotated text
(line 60). -/
structure TaskData where
  reddit : String
deriving Repr, DecidableEq

/-- One Label Studio task (an annotated Reddit post or comment). -/
structure Task where
  completions : List Completion
  data : TaskData
deriving Repr, DecidableEq

/-- Modelled from the spec: a token produced by the external tokenizer
collaborator, exposing its character-offset boundaries (spec sections 4.2
and 6); `endChar` is exclusive. -/
structure Token where
  startChar : ℕ
  endChar : ℕ
deriving Repr, DecidableEq

/-- A resolved entity: a (token-start, token-end, label) span within a
document's token sequence (spec section 3); `tokEnd` is exclusive. -/
structure Entity where
  tokStart : ℕ
  tokEnd : ℕ
  label : String
deriving Repr, DecidableEq

/-- A tokenized document together with its resolved entities (spec
section 3); models the spaCy Doc after `doc.ents = entities` (line 74). -/
structure Doc where
  tokens : List Token
  ents : List Entity
deriving Repr, DecidableEq

/-- Index of the first token satisfying `p`, if any; models the boundary
lookup the BILUO alignment performs on the token sequence. -/
def findTokenIdx (p : Token → Bool) : List Token → Option ℕ
  | [] => none
  | t :: ts => if p t then some 0 else (findTokenIdx p ts).map (· + 1)

/-- Modelled from the spec: BILUO offset-to-token alignment of a single
annotation (spec section 4.2 step 2, standing in for spaCy's
`offsets_to_biluo_tags` / `biluo_tags_to_spans` pair): the annotation
resolves to an entity iff its start offset coincides with some token's
start boundary and its end offset with some token's end boundary;
otherwise it is dropped (no entity). -/
def alignSpan (toks : List Token) (a : Annotation) : Option Entity :=
  match findTokenIdx (fun t => t.startChar == a.start) toks,
        findTokenIdx (fun t => t.endChar == a.«end») toks with
  | some i, some j => some ⟨i, j + 1, a.label⟩
  | _, _ => none

/-- Modelled from the spec: the resolved entities of a document are the
annotations that align to token boundaries; misaligned annotations
contribute nothing (spec section 4.2 step 3). -/
def alignSpans (toks : List Token) (anns : List Annotation) : List Entity :=
  anns.filterMap (alignSpan toks)

/-- The task filter (lines 52-67): a task is used iff it has exactly one
completion and that completion carries no cancellation marker; a used task
yields its raw text together with its annotations, each normalised to
(start, end, first label). Python's `ent["labels"][0]` presupposes a
non-empty label list; the empty case is modelled with an empty-string
default. -/
def usableTask (task : Task) : Option (String × List Annotation) :=
  match task.completions with
  | [completion] =>
      if completion.was_cancelled then none
      else some (task.data.reddit,
        completion.result.map fun r => ⟨r.value.start, r.value.«end», r.value.labels.headD ""⟩)
  | _ => none

/-- Accumulator of `create_spacy_docs` (lines 48-50): collected documents,
total annotated entities seen, and total misaligned annotations. The
source only prints `misaligned` in a summary table; it is kept as data
here. -/
structure ConvertAcc where
  docs : List Doc
  tot_ents : ℕ
  misaligned : ℕ
deriving Repr, DecidableEq

/-- Body of the per-task loop of `create_spacy_docs` (lines 52-77): filter
the task, tokenize its text, align its annotations, append the resulting
document and update both counters; `misaligned` grows by
`len(annotated_entities) - len(doc.ents)` exactly as on line 77. -/
def processTask (tokenize : String → List Token) (acc : ConvertAcc) (task : Task) : ConvertAcc :=
  match usableTask task with
  | none => acc
  | some (raw_text, annotated_entities) =>
      let toks := tokenize raw_text
      let doc : Doc := ⟨toks, alignSpans toks annotated_entities⟩
      { docs := acc.docs ++ [doc]
        tot_ents := acc.tot_ents + annotated_entities.length
        misaligned := acc.misaligned + (annotated_entities.length - doc.ents.length) }

/-- `create_spacy_docs` (lines 35-84), with the external spaCy tokenizer
passed explicitly. -/
def create_spacy_docs (tokenize : String → List Token) (completed_tasks : List Task) :
    ConvertAcc :=
  completed_tasks.foldl (processTask tokenize) ⟨[], 0, 0⟩

/-- The Python exceptions the script can raise or catch. `valueError`
carries the three partition document counts reported in the message built
on lines 139-140, in the message's order: train, test, dev. -/
inductive PyErr where
  | zeroDivisionError : PyErr
  | valueError : ℕ → ℕ → ℕ → PyErr
  | keyError : PyErr
  | fileNotFoundError : PyErr
deriving Repr, DecidableEq

/-- Modelled from the spec: the global state of Python's `random` module,
a deterministic pseudo-random generator (spec section 9 asks for an
explicit deterministic pseudo-random permutation taking the seed as a
parameter). -/
structure PyRandom where
  state : ℕ
deriving Repr, DecidableEq

/-- `random.seed(k)` (line 118): reset the generator state from the
seed. -/
def PyRandom.seed (k : ℕ) : PyRandom := ⟨k⟩

/-- Modelled from the spec: one step of the deterministic generator (a
linear congruential step standing in for Python's Mersenne twister, of
which the spec only requires determinism and reproducibility). -/
def PyRandom.next (r : PyRandom) : ℕ × PyRandom :=
  let s := (r.state * 1103515245 + 12345) % 2 ^ 31
  (s, ⟨s⟩)

/-- Remove and return the element at position `n` of `x :: xs` (position 0
is `x`); helper for the seeded shuffle. -/
def extractAt (x : α) (xs : List α) : ℕ → α × List α
  | 0 => (x, xs)
  | n + 1 =>
      match xs with
      | [] => (x, [])
      | y :: ys =>
          let p := extractAt y ys n
          (p.1, x :: p.2)

/-- Modelled from the spec: `random.shuffle` as a deterministic
Fisher-Yates style permutation driven by the generator state; the fuel is
the list length, kept structural so that concrete runs compute. -/
def shuffleFuel : ℕ → PyRandom → List α → List α
  | 0, _, _ => []
  | _ + 1, _, [] => []
  | fuel + 1, r, x :: xs =>
      let vr := r.next
      let p := extractAt x xs (vr.1 % (xs.length + 1))
      p.1 :: shuffleFuel fuel vr.2 p.2

/-- `random.shuffle(docs)` under the current generator state (line 119). -/
def pyShuffle (r : PyRandom) (l : List α) : List α := shuffleFuel l.length r l

/-- Loop state of `train_test_dev_split` (lines 110-116): the three
partitions, their entity counts, and their current entity ratios. -/
structure SplitState where
  train_docs : List Doc
  dev_docs : List Doc
  test_docs : List Doc
  train_count : ℕ
  dev_count : ℕ
  test_count : ℕ
  cur_train_ratio : ℚ
  cur_dev_ratio : ℚ
  cur_test_ratio : ℚ
deriving Repr, DecidableEq

/-- Initial loop state (lines 110-116): empty partitions, zero counts,
zero ratios. -/
def initState : SplitState := ⟨[], [], [], 0, 0, 0, 0, 0, 0⟩

/-- Python's `/` on integers: true division, raising ZeroDivisionError on
a zero denominator; the quotient is modelled as an exact rational. -/
def pyDiv (a b : ℕ) : Except PyErr ℚ :=
  if b = 0 then .error .zeroDivisionError else .ok ((a : ℚ) / (b : ℚ))

/-- Body of the assignment loop (lines 121-135): greedy rule, dev first,
then test, else train; the chosen branch appends the document to its
partition, adds the document's entity count and recomputes that
partition's ratio by dividing by `tot_ents`. -/
def assignDoc (dev_size test_size : ℚ) (tot_ents : ℕ) (s : SplitState) (doc : Doc) :
    Except PyErr SplitState := do
  let num_entities := doc.ents.length
  if s.cur_dev_ratio < dev_size then
    let r ← pyDiv (s.dev_count + num_entities) tot_ents
    pure { s with dev_docs := s.dev_docs ++ [doc],
                  dev_count := s.dev_count + num_entities, cur_dev_ratio := r }
  else if s.cur_test_ratio < test_size then
    let r ← pyDiv (s.test_count + num_entities) tot_ents
    pure { s with test_docs := s.test_docs ++ [doc],
                  test_count := s.test_count + num_entities, cur_test_ratio := r }
  else
    let r ← pyDiv (s.train_count + num_entities) tot_ents
    pure { s with train_docs := s.train_docs ++ [doc],
                  train_count := s.train_count + num_entities, cur_train_ratio := r }

/-- The assignment loop body with the division taken in ℚ (where division
by zero is total); it agrees with `assignDoc` whenever `tot_ents` is
non-zero, and is used to phrase properties of the completed loop. -/
def assignDocP (dev_size test_size : ℚ) (tot_ents : ℕ) (s : SplitState) (doc : Doc) :
    SplitState :=
  let num_entities := doc.ents.length
  if s.cur_dev_ratio < dev_size then
    { s with dev_docs := s.dev_docs ++ [doc],
             dev_count := s.dev_count + num_entities,
             cur_dev_ratio := ((s.dev_count + num_entities : ℕ) : ℚ) / (tot_ents : ℚ) }
  else if s.cur_test_ratio < test_size then
    { s with test_docs := s.test_docs ++ [doc],
             test_count := s.test_count + num_entities,
             cur_test_ratio := ((s.test_count + num_entities : ℕ) : ℚ) / (tot_ents : ℚ) }
  else
    { s with train_docs := s.train_docs ++ [doc],
             train_count := s.train_count + num_entities,
             cur_train_ratio := ((s.train_count + num_entities : ℕ) : ℚ) / (tot_ents : ℚ) }

/-- The final state of the assignment loop on an (already shuffled)
document list. -/
def runSplitLoop (dev_size test_size : ℚ) (tot_ents : ℕ) (docs : List Doc) : SplitState :=
  docs.foldl (assignDocP dev_size test_size tot_ents) initState

/-- `train_test_dev_split` (lines 88-156). The `_rng` argument models the
global random-module state at call time; line 118 discards it in favour of
seed 42. The first component of the result is the final value of the
caller's `docs` list (line 119 shuffles it in place, before any possible
raise); the second is either the raised exception or the three partitions
(train, dev, test) that lines 154-156 serialise to disk. -/
def train_test_dev_split (_rng : PyRandom) (docs : List Doc) (tot_ents : ℕ)
    (test_size dev_size : ℚ) : List Doc × Except PyErr (List Doc × List Doc × List Doc) :=
  let rng := PyRandom.seed 42
  let shuffled := pyShuffle rng docs
  (shuffled, do
    let s ← shuffled.foldlM (assignDoc dev_size test_size tot_ents) initState
    if s.train_docs.length = 0 ∨ s.test_docs.length = 0 ∨ s.dev_docs.length = 0 then
      throw (.valueError s.train_docs.length s.test_docs.length s.dev_docs.length)
    else
      pure (s.train_docs, s.dev_docs, s.test_docs))

/-- The exception handlers of `main` (lines 160-170): KeyError, ValueError
and FileNotFoundError are caught and printed; anything else propagates out
of the program. -/
def caughtByMain : PyErr → Bool
  | .keyError => true
  | .valueError _ _ _ => true
  | .fileNotFoundError => true
  | .zeroDivisionError => false

/-- All documents placed so far, across the three partitions. -/
def SplitState.allDocs (s : SplitState) : List Doc :=
  s.train_docs ++ s.dev_docs ++ s.test_docs

/-- Per-document misalignment counter increment of line 77:
`len(annotated_entities) - len(doc.ents)`. -/
def misCount (toks : List Token) (anns : List Annotation) : ℕ :=
  anns.length - (alignSpans toks anns).length

/-- Misalignment counter increment contributed by one task. -/
def taskMisCount (tokenize : String → List Token) (task : Task) : ℕ :=
  match usableTask task with
  | none => 0
  | some (raw_text, anns) => misCount (tokenize raw_text) anns

/-- Modelled from the spec: well-formedness of the token sequence the
external tokenizer returns for a text — tokens have positive length and
appear in order without overlapping. -/
def TokensWF (toks : List Token) : Prop :=
  (∀ t ∈ toks, t.startChar < t.endChar) ∧
  toks.Pairwise (fun t u => t.endChar ≤ u.startChar)

/-- Character offset `c` falls strictly inside some token of `toks`. -/
def strictlyInside (toks : List Token) (c : ℕ) : Prop :=
  ∃ t ∈ toks, t.startChar < c ∧ c < t.endChar

/-- Character-offset boundaries spanned by an entity's token span. -/
def Entity.charBounds (toks : List Token) (e : Entity) : Option (ℕ × ℕ) :=
  match toks[e.tokStart]?, toks[e.tokEnd - 1]? with
  | some t, some u => some (t.startChar, u.endChar)
  | _, _ => none

theorem except_error_bind {α β : Type} (e : PyErr) (f : α → Except PyErr β) :
    (Except.error e >>= f) = Except.error e := rfl

theorem except_ok_bind {α β : Type} (a : α) (f : α → Except PyErr β) :
    (Except.ok a >>= f) = f a := rfl

theorem extractAt_length (x : α) (xs : List α) (n : ℕ) :
    (extractAt x xs n).2.length = xs.length := by
  induction n generalizing x xs with
  | zero => simp [extractAt]
  | succ n ih =>
      cases xs with
      | nil => simp [extractAt]
      | cons y ys => simp [extractAt, ih]

theorem extractAt_perm (x : α) (xs : List α) (n : ℕ) :
    ((extractAt x xs n).1 :: (extractAt x xs n).2).Perm (x :: xs) := by
  induction n generalizing x xs with
  | zero => simp [extractAt]
  | succ n ih =>
      cases xs with
      | nil => simp [extractAt]
      | cons y ys =>
          simp only [extractAt]
          exact (List.Perm.swap x (extractAt y ys n).1 (extractAt y ys n).2).trans
            ((ih y ys).cons x)

theorem shuffleFuel_perm :
    ∀ (fuel : ℕ) (r : PyRandom) (l : List α), l.length = fuel →
      (shuffleFuel fuel r l).Perm l := by
  intro fuel
  induction fuel with
  | zero =>
      intro r l h
      cases l with
      | nil => simp [shuffleFuel]
      | cons x xs => simp at h
  | succ n ih =>
      intro r l h
      cases l with
      | nil => simp [shuffleFuel]
      | cons x xs =>
          simp only [shuffleFuel]
          refine List.Perm.trans (List.Perm.cons _ (ih _ _ ?_)) (extractAt_perm x xs _)
          have hx := extractAt_length x xs ((r.next).1 % (xs.length + 1))
          simp only [List.length_cons] at h
          omega

theorem pyShuffle_perm (r : PyRandom) (l : List α) : (pyShuffle r l).Perm l :=
  shuffleFuel_perm l.length r l rfl

theorem pyShuffle_ne_nil (r : PyRandom) (l : List α) (h : l ≠ []) :
    pyShuffle r l ≠ [] := by
  intro hc
  exact h (List.Perm.eq_nil ((pyShuffle_perm r l).symm.trans (hc ▸ List.Perm.refl _)))

theorem assignDoc_eq (dev_size test_size : ℚ) (tot_ents : ℕ) (s : SplitState) (doc : Doc) :
    assignDoc dev_size test_size tot_ents s doc =
      if tot_ents = 0 then .error .zeroDivisionError
      else .ok (assignDocP dev_size test_size tot_ents s doc) := by
  unfold assignDoc assignDocP pyDiv
  by_cases hte : tot_ents = 0
  · simp only [hte, if_true, reduceIte]
    split_ifs <;> rfl
  · simp only [hte, if_false, reduceIte]
    split_ifs <;> rfl

theorem foldlM_assignDoc (dev_size test_size : ℚ) (tot_ents : ℕ) (hte : tot_ents ≠ 0) :
    ∀ (l : List Doc) (s : SplitState),
      l.foldlM (assignDoc dev_size test_size tot_ents) s =
        .ok (l.foldl (assignDocP dev_size test_size tot_ents) s) := by
  intro l
  induction l with
  | nil => intro s; rfl
  | cons d rest ih =>
      intro s
      simp only [List.foldlM_cons, List.foldl_cons, assignDoc_eq, hte, if_false]
      exact ih _

theorem foldlM_assignDoc_zero (dev_size test_size : ℚ) (d : Doc) (rest : List Doc)
    (s : SplitState) :
    (d :: rest).foldlM (assignDoc dev_size test_size 0) s = .error .zeroDivisionError := by
  simp [List.foldlM_cons, assignDoc_eq, except_error_bind]

theorem train_test_dev_split_eq (rng : PyRandom) (docs : List Doc) (tot_ents : ℕ)
    (test_size dev_size : ℚ) (hte : tot_ents ≠ 0) :
    train_test_dev_split rng docs tot_ents test_size dev_size =
      (pyShuffle (PyRandom.seed 42) docs,
        let s := runSplitLoop dev_size test_size tot_ents (pyShuffle (PyRandom.seed 42) docs)
        if s.train_docs.length = 0 ∨ s.test_docs.length = 0 ∨ s.dev_docs.length = 0 then
          .error (.valueError s.train_docs.length s.test_docs.length s.dev_docs.length)
        else .ok (s.train_docs, s.dev_docs, s.test_docs)) := by
  unfold train_test_dev_split runSplitLoop
  simp only [foldlM_assignDoc dev_size test_size tot_ents hte]
  rfl

theorem train_test_dev_split_snd (rng : PyRandom) (docs : List Doc) (tot_ents : ℕ)
    (test_size dev_size : ℚ) (hte : tot_ents ≠ 0) :
    (train_test_dev_split rng docs tot_ents test_size dev_size).2 =
      (if (runSplitLoop dev_size test_size tot_ents
            (pyShuffle (PyRandom.seed 42) docs)).train_docs.length = 0 ∨
          (runSplitLoop dev_size test_size tot_ents
            (pyShuffle (PyRandom.seed 42) docs)).test_docs.length = 0 ∨
          (runSplitLoop dev_size test_size tot_ents
            (pyShuffle (PyRandom.seed 42) docs)).dev_docs.length = 0 then
        Except.error (PyErr.valueError
          (runSplitLoop dev_size test_size tot_ents
            (pyShuffle (PyRandom.seed 42) docs)).train_docs.length
          (runSplitLoop dev_size test_size tot_ents
            (pyShuffle (PyRandom.seed 42) docs)).test_docs.length
          (runSplitLoop dev_size test_size tot_ents
            (pyShuffle (PyRandom.seed 42) docs)).dev_docs.length)
      else Except.ok
        ((runSplitLoop dev_size test_size tot_ents
            (pyShuffle (PyRandom.seed 42) docs)).train_docs,
         (runSplitLoop dev_size test_size tot_ents
            (pyShuffle (PyRandom.seed 42) docs)).dev_docs,
         (runSplitLoop dev_size test_size tot_ents
            (pyShuffle (PyRandom.seed 42) docs)).test_docs)) := by
  rw [train_test_dev_split_eq rng docs tot_ents test_size dev_size hte]

theorem assignDocP_allDocs (dev_size test_size : ℚ) (tot_ents : ℕ) (s : SplitState)
    (doc : Doc) :
    ((assignDocP dev_size test_size tot_ents s doc).allDocs).Perm (doc :: s.allDocs) := by
  unfold assignDocP SplitState.allDocs
  split_ifs <;> simp only [List.append_assoc, List.singleton_append]
  · exact (List.perm_middle.append_left _).trans List.perm_middle
  · exact ((List.perm_append_singleton _ _).append_left _ |>.append_left _).trans
      ((List.perm_middle.append_left _).trans List.perm_middle)
  · exact List.perm_middle

theorem foldl_assignDocP_allDocs (dev_size test_size : ℚ) (tot_ents : ℕ) :
    ∀ (l : List Doc) (s : SplitState),
      ((l.foldl (assignDocP dev_size test_size tot_ents) s).allDocs).Perm (s.allDocs ++ l) := by
  intro l
  induction l with
  | nil => intro s; simp
  | cons d rest ih =>
      intro s
      simp only [List.foldl_cons]
      refine ((ih _).trans ?_)
      refine (((assignDocP_allDocs dev_size test_size tot_ents s d).append_right rest).trans ?_)
      simpa using List.perm_middle.symm

theorem foldlM_assignDoc_ok_inv (dev_size test_size : ℚ) (tot_ents : ℕ) :
    ∀ (l : List Doc) (s0 s : SplitState),
      l.foldlM (assignDoc dev_size test_size tot_ents) s0 = .ok s →
      l.foldl (assignDocP dev_size test_size tot_ents) s0 = s := by
  intro l
  induction l with
  | nil =>
      intro s0 s h
      simp only [List.foldlM_nil] at h
      simpa [List.foldl_nil] using Except.ok.inj h
  | cons d rest ih =>
      intro s0 s h
      rw [List.foldlM_cons, assignDoc_eq] at h
      by_cases hte : tot_ents = 0
      · subst hte
        rw [if_pos rfl, except_error_bind] at h
        exact Except.noConfusion h
      · rw [if_neg hte, except_ok_bind] at h
        simpa [List.foldl_cons] using ih _ _ h

theorem foldl_dev_frozen (dev_size test_size : ℚ) (tot_ents : ℕ) :
    ∀ (docs : List Doc) (s : SplitState), dev_size ≤ s.cur_dev_ratio →
      (docs.foldl (assignDocP dev_size test_size tot_ents) s).dev_docs = s.dev_docs ∧
      (docs.foldl (assignDocP dev_size test_size tot_ents) s).cur_dev_ratio =
        s.cur_dev_ratio := by
  intro docs
  induction docs with
  | nil => intro s _; exact ⟨rfl, rfl⟩
  | cons d rest ih =>
      intro s hs
      have hstep : (assignDocP dev_size test_size tot_ents s d).dev_docs = s.dev_docs ∧
          (assignDocP dev_size test_size tot_ents s d).cur_dev_ratio = s.cur_dev_ratio := by
        unfold assignDocP
        split_ifs with h1 h2
        · exact absurd h1 (not_lt.mpr hs)
        · exact ⟨rfl, rfl⟩
        · exact ⟨rfl, rfl⟩
      simp only [List.foldl_cons]
      have := ih (assignDocP dev_size test_size tot_ents s d) (hstep.2 ▸ hs)
      exact ⟨this.1.trans hstep.1, this.2.trans hstep.2⟩

theorem foldl_test_frozen (dev_size test_size : ℚ) (tot_ents : ℕ) :
    ∀ (docs : List Doc) (s : SplitState), test_size ≤ s.cur_test_ratio →
      (docs.foldl (assignDocP dev_size test_size tot_ents) s).test_docs = s.test_docs ∧
      (docs.foldl (assignDocP dev_size test_size tot_ents) s).cur_test_ratio =
        s.cur_test_ratio := by
  intro docs
  induction docs with
  | nil => intro s _; exact ⟨rfl, rfl⟩
  | cons d rest ih =>
      intro s hs
      have hstep : (assignDocP dev_size test_size tot_ents s d).test_docs = s.test_docs ∧
          (assignDocP dev_size test_size tot_ents s d).cur_test_ratio = s.cur_test_ratio := by
        unfold assignDocP
        split_ifs with h1 h2
        · exact ⟨rfl, rfl⟩
        · exact absurd h2 (not_lt.mpr hs)
        · exact ⟨rfl, rfl⟩
      simp only [List.foldl_cons]
      have := ih (assignDocP dev_size test_size tot_ents s d) (hstep.2 ▸ hs)
      exact ⟨this.1.trans hstep.1, this.2.trans hstep.2⟩

theorem findTokenIdx_eq_none (p : Token → Bool) :
    ∀ toks : List Token, (∀ t ∈ toks, p t = false) → findTokenIdx p toks = none := by
  intro toks
  induction toks with
  | nil => intro _; rfl
  | cons t ts ih =>
      intro h
      simp only [findTokenIdx, h t (List.mem_cons_self t ts), if_false, Bool.false_eq_true]
      rw [ih fun u hu => h u (List.mem_cons_of_mem t hu)]
      rfl

theorem findTokenIdx_some (p : Token → Bool) :
    ∀ (toks : List Token) (i : ℕ), findTokenIdx p toks = some i →
      ∃ t, toks[i]? = some t ∧ p t = true := by
  intro toks
  induction toks with
  | nil => intro i h; simp [findTokenIdx] at h
  | cons t ts ih =>
      intro i h
      by_cases hp : p t
      · simp only [findTokenIdx, hp, if_true] at h
        obtain rfl : i = 0 := (Option.some.inj h).symm
        exact ⟨t, by simp, hp⟩
      · simp only [findTokenIdx, hp, Bool.false_eq_true, if_false] at h
        cases hfind : findTokenIdx p ts with
        | none => rw [hfind] at h; exact Option.noConfusion h
        | some i' =>
            rw [hfind] at h
            have h' : i' + 1 = i := by simpa using h
            subst h'
            obtain ⟨u, hu, hpu⟩ := ih i' hfind
            exact ⟨u, by simpa using hu, hpu⟩

theorem noBoundaryAt :
    ∀ (toks : List Token), TokensWF toks → ∀ t ∈ toks, ∀ c : ℕ,
      t.startChar < c → c < t.endChar → ∀ u ∈ toks, u.startChar ≠ c ∧ u.endChar ≠ c := by
  intro toks
  induction toks with
  | nil => intro _ t ht; exact absurd ht (List.not_mem_nil t)
  | cons v rest ih =>
      intro hwf t ht c h1 h2 u hu
      obtain ⟨hpos, hpw⟩ := hwf
      rw [List.pairwise_cons] at hpw
      obtain ⟨hvr, hrest⟩ := hpw
      have hwfrest : TokensWF rest :=
        ⟨fun x hx => hpos x (List.mem_cons_of_mem v hx), hrest⟩
      rcases List.mem_cons.mp ht with rfl | htr
      · rcases List.mem_cons.mp hu with rfl | hur
        · omega
        · have h3 := hvr u hur
          have h4 := hpos u (List.mem_cons_of_mem t hur)
          omega
      · rcases List.mem_cons.mp hu with rfl | hur
        · have h3 := hvr t htr
          have h4 := hpos u (List.mem_cons_self u rest)
          omega
        · exact ih hwfrest t htr c h1 h2 u hur

theorem strictlyInside_align_none (toks : List Token) (hwf : TokensWF toks)
    (a : Annotation) (hmis : strictlyInside toks a.start ∨ strictlyInside toks a.«end») :
    alignSpan toks a = none := by
  rcases hmis with ⟨t, ht, h1, h2⟩ | ⟨t, ht, h1, h2⟩
  · have hb := noBoundaryAt toks hwf t ht a.start h1 h2
    have hn : findTokenIdx (fun u => u.startChar == a.start) toks = none :=
      findTokenIdx_eq_none _ toks fun u hu => by
        simpa using (hb u hu).1
    unfold alignSpan
    rw [hn]
  · have hb := noBoundaryAt toks hwf t ht a.«end» h1 h2
    have hn : findTokenIdx (fun u => u.endChar == a.«end») toks = none :=
      findTokenIdx_eq_none _ toks fun u hu => by
        simpa using (hb u hu).2
    unfold alignSpan
    rw [hn]
    cases findTokenIdx (fun u => u.startChar == a.start) toks <;> rfl

theorem length_align_partition (toks : List Token) :
    ∀ anns : List Annotation,
      (alignSpans toks anns).length +
        (anns.filter (fun a => (alignSpan toks a).isNone)).length = anns.length := by
  intro anns
  induction anns with
  | nil => rfl
  | cons a rest ih =>
      cases h : alignSpan toks a with
      | none => simp [alignSpans, List.filterMap_cons, List.filter_cons, h] at ih ⊢; omega
      | some e => simp [alignSpans, List.filterMap_cons, List.filter_cons, h] at ih ⊢; omega

theorem foldl_misaligned (tokenize : String → List Token) :
    ∀ (tasks : List Task) (acc : ConvertAcc),
      (tasks.foldl (processTask tokenize) acc).misaligned =
        acc.misaligned + (tasks.map (taskMisCount tokenize)).sum := by
  intro tasks
  induction tasks with
  | nil => intro acc; simp
  | cons t rest ih =>
      intro acc
      simp only [List.foldl_cons, List.map_cons, List.sum_cons]
      rw [ih]
      unfold processTask taskMisCount
      cases husable : usableTask t with
      | none => simp
      | some pr =>
          obtain ⟨txt, anns⟩ := pr
          simp only [misCount, alignSpans]
          omega

theorem foldl_conservation (tokenize : String → List Token) :
    ∀ (tasks : List Task) (acc : ConvertAcc),
      acc.tot_ents = (acc.docs.map (fun d => d.ents.length)).sum + acc.misaligned →
      (tasks.foldl (processTask tokenize) acc).tot_ents =
        ((tasks.foldl (processTask tokenize) acc).docs.map (fun d => d.ents.length)).sum +
          (tasks.foldl (processTask tokenize) acc).misaligned := by
  intro tasks
  induction tasks with
  | nil => intro acc h; simpa using h
  | cons t rest ih =>
      intro acc h
      simp only [List.foldl_cons]
      refine ih _ ?_
      unfold processTask
      cases husable : usableTask t with
      | none => simpa using h
      | some pr =>
          obtain ⟨txt, anns⟩ := pr
          have hle : (alignSpans (tokenize txt) anns).length ≤ anns.length :=
            List.length_filterMap_le _ _
          simp only [List.map_append, List.sum_append, List.map_cons, List.sum_cons,
            List.map_nil, List.sum_nil]
          omega

/-- Concrete documents used in the closed instances below. -/
def docA : Doc := ⟨[], [⟨0, 1, "A"⟩]⟩

/-- Second concrete document. -/
def docB : Doc := ⟨[], [⟨0, 1, "B"⟩]⟩

/-- Third concrete document. -/
def docC : Doc := ⟨[], [⟨0, 1, "C"⟩]⟩

/-- C1: on every successful run, train_test_dev_split assigns each document
to exactly one partition by the greedy rule: the concatenation of the
returned train, dev and test lists is a permutation of the shuffled input
list (hence of the input list), and every document keeps its multiplicity,
so none is duplicated or dropped. -/
theorem C1_partition_coverage (rng : PyRandom) (docs : List Doc) (tot_ents : ℕ)
    (test_size dev_size : ℚ) (train dev test : List Doc)
    (h : (train_test_dev_split rng docs tot_ents test_size dev_size).2 =
      Except.ok (train, dev, test)) :
    (train ++ dev ++ test).Perm (pyShuffle (PyRandom.seed 42) docs) ∧
    (train ++ dev ++ test).Perm docs ∧
    ∀ d : Doc, (train ++ dev ++ test).count d = docs.count d := by
  have hsnd : (train_test_dev_split rng docs tot_ents test_size dev_size).2 =
      ((pyShuffle (PyRandom.seed 42) docs).foldlM
          (assignDoc dev_size test_size tot_ents) initState >>= fun s =>
        if s.train_docs.length = 0 ∨ s.test_docs.length = 0 ∨ s.dev_docs.length = 0 then
          Except.error (PyErr.valueError s.train_docs.length s.test_docs.length
            s.dev_docs.length)
        else Except.ok (s.train_docs, s.dev_docs, s.test_docs)) := rfl
  rw [hsnd] at h
  cases hfold : (pyShuffle (PyRandom.seed 42) docs).foldlM
      (assignDoc dev_size test_size tot_ents) initState with
  | error e =>
      rw [hfold, except_error_bind] at h
      exact Except.noConfusion h
  | ok s =>
      rw [hfold, except_ok_bind] at h
      by_cases hc : s.train_docs.length = 0 ∨ s.test_docs.length = 0 ∨
          s.dev_docs.length = 0
      · rw [if_pos hc] at h
        exact Except.noConfusion h
      · rw [if_neg hc] at h
        simp only [Except.ok.injEq, Prod.mk.injEq] at h
        obtain ⟨h1, h2, h3⟩ := h
        subst h1; subst h2; subst h3
        have hfoldl := foldlM_assignDoc_ok_inv dev_size test_size tot_ents _ _ _ hfold
        have hperm : (s.train_docs ++ s.dev_docs ++ s.test_docs).Perm
            (pyShuffle (PyRandom.seed 42) docs) := by
          have hall := foldl_assignDocP_allDocs dev_size test_size tot_ents
            (pyShuffle (PyRandom.seed 42) docs) initState
          rw [hfoldl] at hall
          simpa [initState, SplitState.allDocs] using hall
        exact ⟨hperm, hperm.trans (pyShuffle_perm _ _),
          fun d => (hperm.trans (pyShuffle_perm _ _)).count_eq d⟩

/-- C1 witness: a concrete successful split of three one-entity documents
with both target ratios one third. -/
theorem C1_partition_coverage_witness :
    ([docC] ++ [docA] ++ [docB]).Perm [docA, docB, docC] :=
  (C1_partition_coverage (PyRandom.seed 0) [docA, docB, docC] 3 (1/3) (1/3)
    [docC] [docA] [docB] (by
      rw [train_test_dev_split_eq _ _ _ _ _ (by norm_num)]
      norm_num [runSplitLoop, assignDocP, initState, pyShuffle, shuffleFuel, extractAt,
        PyRandom.next, PyRandom.seed, docA, docB, docC])).2.1

/-- C2: with a non-zero entity total (so the assignment loop itself
completes), train_test_dev_split raises ValueError exactly when at least
one of the three partitions ends up with zero documents; the error carries
the three per-partition document counts (train, test, dev, as in the
message of lines 139-140), and when it fails no partition result is
produced. -/
theorem C2_emptiness_error (rng : PyRandom) (docs : List Doc) (tot_ents : ℕ)
    (test_size dev_size : ℚ) (final : SplitState) (hte : tot_ents ≠ 0)
    (hfinal : final = runSplitLoop dev_size test_size tot_ents
      (pyShuffle (PyRandom.seed 42) docs)) :
    ((train_test_dev_split rng docs tot_ents test_size dev_size).2 =
        Except.error (PyErr.valueError final.train_docs.length final.test_docs.length
          final.dev_docs.length) ↔
      (final.train_docs.length = 0 ∨ final.test_docs.length = 0 ∨
        final.dev_docs.length = 0)) ∧
    ((train_test_dev_split rng docs tot_ents test_size dev_size).2 =
        Except.ok (final.train_docs, final.dev_docs, final.test_docs) ↔
      ¬(final.train_docs.length = 0 ∨ final.test_docs.length = 0 ∨
        final.dev_docs.length = 0)) := by
  subst hfinal
  rw [train_test_dev_split_snd rng docs tot_ents test_size dev_size hte]
  by_cases hc : (runSplitLoop dev_size test_size tot_ents
      (pyShuffle (PyRandom.seed 42) docs)).train_docs.length = 0 ∨
    (runSplitLoop dev_size test_size tot_ents
      (pyShuffle (PyRandom.seed 42) docs)).test_docs.length = 0 ∨
    (runSplitLoop dev_size test_size tot_ents
      (pyShuffle (PyRandom.seed 42) docs)).dev_docs.length = 0
  · rw [if_pos hc]
    exact ⟨iff_of_true rfl hc,
      iff_of_false (fun hi => Except.noConfusion hi) (not_not_intro hc)⟩
  · rw [if_neg hc]
    exact ⟨iff_of_false (fun hi => Except.noConfusion hi) hc, iff_of_true rfl hc⟩

/-- C2 witness: one single-entity document with half/half target ratios
leaves train and test empty, and the run fails with the ValueError
carrying the counts train 0, test 0, dev 1. -/
theorem C2_emptiness_error_witness :
    (train_test_dev_split (PyRandom.seed 0) [docA] 1 (1/2) (1/2)).2 =
      Except.error (PyErr.valueError 0 0 1) := by
  have h := C2_emptiness_error (PyRandom.seed 0) [docA] 1 (1/2) (1/2)
    ⟨[], [docA], [], 0, 1, 0, 0, 1, 0⟩ (by norm_num)
    (by norm_num [runSplitLoop, assignDocP, initState, pyShuffle, shuffleFuel, extractAt,
      PyRandom.next, PyRandom.seed, docA])
  simpa using h.1.mpr (by simp)

/-- C3: entity conservation — for every tokenizer and every input task
list, the total number of annotations seen by create_spacy_docs equals the
total number of entities resolved into the produced documents plus the
total misaligned count. -/
theorem C3_entity_conservation (tokenize : String → List Token) (tasks : List Task) :
    (create_spacy_docs tokenize tasks).tot_ents =
      ((create_spacy_docs tokenize tasks).docs.map (fun d => d.ents.length)).sum +
        (create_spacy_docs tokenize tasks).misaligned := by
  unfold create_spacy_docs
  exact foldl_conservation tokenize tasks ⟨[], 0, 0⟩ (by simp)

/-- C4: determinism — the result of train_test_dev_split does not depend
on the ambient random-module state, because the function reseeds the
generator with the fixed value 42 before shuffling; identical inputs
therefore give identical partitions across runs. -/
theorem C4_deterministic_split (r1 r2 : PyRandom) (docs : List Doc) (tot_ents : ℕ)
    (test_size dev_size : ℚ) :
    train_test_dev_split r1 docs tot_ents test_size dev_size =
      train_test_dev_split r2 docs tot_ents test_size dev_size := rfl

/-- C5: greedy saturation order — a document is added to dev only while
dev's running ratio is below its target, to test only when dev is
saturated and test's ratio is below its target, and to train only when
both dev and test are saturated; moreover once dev (resp. test) has
reached its target ratio it receives no further documents for the rest of
the loop. -/
theorem C5_greedy_saturation (dev_size test_size : ℚ) (tot_ents : ℕ) (s : SplitState)
    (doc : Doc) (docs : List Doc) :
    ((assignDocP dev_size test_size tot_ents s doc).dev_docs ≠ s.dev_docs →
      s.cur_dev_ratio < dev_size) ∧
    ((assignDocP dev_size test_size tot_ents s doc).test_docs ≠ s.test_docs →
      dev_size ≤ s.cur_dev_ratio ∧ s.cur_test_ratio < test_size) ∧
    ((assignDocP dev_size test_size tot_ents s doc).train_docs ≠ s.train_docs →
      dev_size ≤ s.cur_dev_ratio ∧ test_size ≤ s.cur_test_ratio) ∧
    (dev_size ≤ s.cur_dev_ratio →
      (docs.foldl (assignDocP dev_size test_size tot_ents) s).dev_docs = s.dev_docs) ∧
    (test_size ≤ s.cur_test_ratio →
      (docs.foldl (assignDocP dev_size test_size tot_ents) s).test_docs = s.test_docs) := by
  refine ⟨?_, ?_, ?_, fun h => (foldl_dev_frozen dev_size test_size tot_ents docs s h).1,
    fun h => (foldl_test_frozen dev_size test_size tot_ents docs s h).1⟩
  · unfold assignDocP
    split_ifs with h1 h2 <;> intro hne
    · exact h1
    · exact absurd rfl hne
    · exact absurd rfl hne
  · unfold assignDocP
    split_ifs with h1 h2 <;> intro hne
    · exact absurd rfl hne
    · exact ⟨not_lt.mp h1, h2⟩
    · exact absurd rfl hne
  · unfold assignDocP
    split_ifs with h1 h2 <;> intro hne
    · exact absurd rfl hne
    · exact absurd rfl hne
    · exact ⟨not_lt.mp h1, not_lt.mp h2⟩

/-- C5 witness: with a zero dev target the initial state is already
saturated and dev receives nothing. -/
theorem C5_greedy_saturation_witness :
    ([docA].foldl (assignDocP 0 0 1) initState).dev_docs = initState.dev_docs :=
  (C5_greedy_saturation 0 0 1 initState docA [docA]).2.2.2.1 (by norm_num [initState])

/-- C6: offset alignment — over a well-formed token sequence, an
annotation whose start and end offsets both coincide with token boundaries
yields an entity with the same character boundaries and the same label in
the aligned entity list, while an annotation with a boundary strictly
inside a token yields no entity and increments the per-document misaligned
count by exactly one. -/
theorem C6_offset_alignment (toks : List Token) (anns : List Annotation) (a : Annotation)
    (hwf : TokensWF toks) :
    (∀ i j, findTokenIdx (fun t => t.startChar == a.start) toks = some i →
      findTokenIdx (fun t => t.endChar == a.«end») toks = some j →
      a ∈ anns →
      ∃ e ∈ alignSpans toks anns,
        e.label = a.label ∧ Entity.charBounds toks e = some (a.start, a.«end»)) ∧
    ((strictlyInside toks a.start ∨ strictlyInside toks a.«end») →
      alignSpan toks a = none ∧
      ∀ l1 l2, anns = l1 ++ a :: l2 →
        alignSpans toks anns = alignSpans toks (l1 ++ l2) ∧
        misCount toks anns = misCount toks (l1 ++ l2) + 1) := by
  constructor
  · intro i j hi hj ha
    have halign : alignSpan toks a = some ⟨i, j + 1, a.label⟩ := by
      unfold alignSpan
      rw [hi, hj]
    refine ⟨⟨i, j + 1, a.label⟩, List.mem_filterMap.mpr ⟨a, ha, halign⟩, rfl, ?_⟩
    obtain ⟨t, hti, hpt⟩ := findTokenIdx_some _ toks i hi
    obtain ⟨u, huj, hpu⟩ := findTokenIdx_some _ toks j hj
    have ht' : t.startChar = a.start := by simpa using hpt
    have hu' : u.endChar = a.«end» := by simpa using hpu
    unfold Entity.charBounds
    simp only [Nat.add_sub_cancel]
    rw [hti, huj]
    simp [ht', hu']
  · intro hmis
    have hnone := strictlyInside_align_none toks hwf a hmis
    refine ⟨hnone, ?_⟩
    intro l1 l2 heq
    subst heq
    have hsame : alignSpans toks (l1 ++ a :: l2) = alignSpans toks (l1 ++ l2) := by
      simp [alignSpans, List.filterMap_append, List.filterMap_cons, hnone]
    refine ⟨hsame, ?_⟩
    unfold misCount
    rw [hsame]
    have hle : (alignSpans toks (l1 ++ l2)).length ≤ (l1 ++ l2).length :=
      List.length_filterMap_le _ _
    simp only [List.length_append, List.length_cons] at hle ⊢
    omega

/-- C6 witness: over tokens covering offsets 0-3 and 4-6, the annotation
(0, 3, X) aligns and yields an entity with those very boundaries. -/
theorem C6_offset_alignment_witness :
    ∃ e ∈ alignSpans [⟨0, 3⟩, ⟨4, 6⟩] [⟨0, 3, "X"⟩],
      e.label = "X" ∧ Entity.charBounds [⟨0, 3⟩, ⟨4, 6⟩] e = some (0, 3) :=
  (C6_offset_alignment [⟨0, 3⟩, ⟨4, 6⟩] [⟨0, 3, "X"⟩] ⟨0, 3, "X"⟩
    ⟨by decide, by norm_num [List.pairwise_cons]⟩).1 0 0 rfl rfl
    (List.mem_singleton.mpr rfl)

/-- C7: the task filter admits a task iff it has exactly one completion
and that completion carries no cancellation marker; zero or multiple
completions are silently excluded (no error, the task just yields
nothing); an admitted task contributes its raw text and its annotations
normalised to (start, end, first label). -/
theorem C7_task_filter (task : Task) :
    ((usableTask task).isSome ↔
      ∃ c, task.completions = [c] ∧ c.was_cancelled = false) ∧
    (∀ c, task.completions = [c] → c.was_cancelled = false →
      usableTask task = some (task.data.reddit,
        c.result.map fun r => ⟨r.value.start, r.value.«end», r.value.labels.headD ""⟩)) ∧
    (∀ c, task.completions = [c] → c.was_cancelled = true → usableTask task = none) ∧
    (task.completions.length ≠ 1 → usableTask task = none) := by
  obtain ⟨cs, data⟩ := task
  rcases cs with _ | ⟨c, rest⟩
  · refine ⟨by simp [usableTask], ?_, ?_, fun _ => rfl⟩
    · intro c' h1
      exact absurd h1 (by simp)
    · intro c' h1
      exact absurd h1 (by simp)
  · rcases rest with _ | ⟨c2, rest2⟩
    · by_cases hc : c.was_cancelled
      · refine ⟨by simp [usableTask, hc], ?_, ?_, ?_⟩
        · intro c' h1 h2
          obtain rfl : c = c' := by simpa using h1
          simp [hc] at h2
        · intro c' h1 _
          simp [usableTask, hc]
        · intro h
          simp at h
      · refine ⟨by simp [usableTask, hc], ?_, ?_, ?_⟩
        · intro c' h1 _
          obtain rfl : c = c' := by simpa using h1
          simp [usableTask, hc]
        · intro c' h1 h2
          obtain rfl : c = c' := by simpa using h1
          simp [hc] at h2
        · intro h
          simp at h
    · refine ⟨by simp [usableTask], ?_, ?_, fun _ => rfl⟩
      · intro c' h1
        exact absurd h1 (by simp)
      · intro c' h1
        exact absurd h1 (by simp)

/-- C7 witness: a task with exactly one non-cancelled completion carrying
one two-label result is admitted, and its annotation takes the first
label. -/
theorem C7_task_filter_witness :
    usableTask ⟨[⟨[⟨⟨5, 9, ["PER", "ORG"]⟩⟩], false⟩], ⟨"hello"⟩⟩ =
      some ("hello", [⟨5, 9, "PER"⟩]) := by
  have h := (C7_task_filter ⟨[⟨[⟨⟨5, 9, ["PER", "ORG"]⟩⟩], false⟩], ⟨"hello"⟩⟩).2.1
    ⟨[⟨⟨5, 9, ["PER", "ORG"]⟩⟩], false⟩ rfl rfl
  simpa using h

/-- C8: the alignment stage is total and absorbing — create_spacy_docs
always completes, its misaligned counter is exactly the sum over tasks of
the number of annotations that fail to align, and per document the
resolved entities and the misaligned annotations partition the annotation
list. -/
theorem C8_alignment_never_fatal (tokenize : String → List Token) (tasks : List Task)
    (toks : List Token) (anns : List Annotation) :
    (create_spacy_docs tokenize tasks).misaligned =
      (tasks.map (taskMisCount tokenize)).sum ∧
    misCount toks anns =
      (anns.filter (fun a => (alignSpan toks a).isNone)).length ∧
    (alignSpans toks anns).length +
      (anns.filter (fun a => (alignSpan toks a).isNone)).length = anns.length := by
  refine ⟨?_, ?_, length_align_partition toks anns⟩
  · unfold create_spacy_docs
    simpa using foldl_misaligned tokenize tasks ⟨[], 0, 0⟩
  · have h := length_align_partition toks anns
    have hle : (alignSpans toks anns).length ≤ anns.length :=
      List.length_filterMap_le _ _
    unfold misCount
    omega

/-- C9: when the total entity count is zero and the document list is
non-empty, the first ratio update divides by zero, so train_test_dev_split
raises ZeroDivisionError — an exception that main does not catch. -/
theorem C9_zero_total_entities (rng : PyRandom) (docs : List Doc)
    (test_size dev_size : ℚ) (h : docs ≠ []) :
    (train_test_dev_split rng docs 0 test_size dev_size).2 =
      Except.error PyErr.zeroDivisionError ∧
    caughtByMain PyErr.zeroDivisionError = false := by
  refine ⟨?_, rfl⟩
  obtain ⟨d, rest, hd⟩ :=
    List.exists_cons_of_ne_nil (pyShuffle_ne_nil (PyRandom.seed 42) docs h)
  have hsnd : (train_test_dev_split rng docs 0 test_size dev_size).2 =
      ((pyShuffle (PyRandom.seed 42) docs).foldlM (assignDoc dev_size test_size 0)
        initState >>= fun s =>
        if s.train_docs.length = 0 ∨ s.test_docs.length = 0 ∨ s.dev_docs.length = 0 then
          Except.error (PyErr.valueError s.train_docs.length s.test_docs.length
            s.dev_docs.length)
        else Except.ok (s.train_docs, s.dev_docs, s.test_docs)) := rfl
  rw [hsnd, hd, foldlM_assignDoc_zero, except_error_bind]

/-- C9 witness: a single document with total entity count zero. -/
theorem C9_zero_total_entities_witness :
    (train_test_dev_split (PyRandom.seed 0) [docA] 0 (1/2) (1/2)).2 =
      Except.error PyErr.zeroDivisionError ∧
    caughtByMain PyErr.zeroDivisionError = false :=
  C9_zero_total_entities (PyRandom.seed 0) [docA] (1/2) (1/2) (by simp)

/-- C10: train_test_dev_split mutates its docs argument in place — after
the call (on the success path and on the error path alike) the caller's
list is the seed-42 shuffle of the original, which is a permutation
preserving every document (and its entities) with its multiplicity, and
for some inputs the order genuinely differs from the original. -/
theorem C10_docs_shuffled_in_place (rng : PyRandom) (docs : List Doc) (tot_ents : ℕ)
    (test_size dev_size : ℚ) :
    (train_test_dev_split rng docs tot_ents test_size dev_size).1 =
      pyShuffle (PyRandom.seed 42) docs ∧
    (pyShuffle (PyRandom.seed 42) docs).Perm docs ∧
    (∀ d : Doc, (pyShuffle (PyRandom.seed 42) docs).count d = docs.count d) ∧
    ∃ l : List Doc, pyShuffle (PyRandom.seed 42) l ≠ l :=
  ⟨rfl, pyShuffle_perm _ _, fun d => (pyShuffle_perm _ _).count_eq d,
    ⟨[docA, docB], by decide⟩⟩

end Preprocess
